import Mathlib

/-!
# Verification of kwscrapebot's scheduling and change-detection core

Shallow embedding of the relevant parts of `bot.py`, `database.py` and
`scrape.py` (a Telegram bot that periodically scrapes pages for links
matching keywords and notifies users of links not previously seen).

Python strings that undergo string algorithms (keyword normalisation,
joining, splitting, substring search) are modelled as `List Char`; strings
used only as opaque identifiers (urls, link fields) stay `String`.
Python's ASCII-range `str.lower` is modelled by `pyCharLower` (the claims
only involve ASCII keywords). Fallible Python code (raised exceptions)
is modelled with explicit error values.
-/

namespace KwScrapeBot

/-- Python exceptions that the modelled code can raise. -/
inductive PyError where
  | typeError
  | attributeError
  deriving DecidableEq, Repr

/-! ## Python string primitives on `List Char` -/

/-- Python `str.lower` on one character (basic-latin range, as exercised by
the bot's ASCII keywords): `A`–`Z` maps to `a`–`z`, all else unchanged. -/
def pyCharLower (c : Char) : Char :=
  if 65 ≤ c.toNat ∧ c.toNat ≤ 90 then Char.ofNat (c.toNat + 32) else c

/-- Python `str.lower` over a whole string. -/
def pyLower (s : List Char) : List Char :=
  s.map pyCharLower

/-- Python `str.strip`: drop leading and trailing whitespace. -/
def pyStrip (s : List Char) : List Char :=
  ((s.dropWhile Char.isWhitespace).reverse.dropWhile Char.isWhitespace).reverse

/-- Python `' '.join` generalised to any separator. -/
def pyJoin (sep : List Char) : List (List Char) → List Char
  | [] => []
  | [x] => x
  | x :: xs => x ++ sep ++ pyJoin sep xs

/-- Helper for `pySplit`: accumulates the current word (reversed) while
scanning. -/
def pySplitAux : List Char → List Char → List (List Char)
  | [], acc => if acc = [] then [] else [acc.reverse]
  | c :: cs, acc =>
    if c.isWhitespace then
      if acc = [] then pySplitAux cs [] else acc.reverse :: pySplitAux cs []
    else
      pySplitAux cs (c :: acc)

/-- Python `str.split()` with no argument: split on runs of whitespace,
discarding empty pieces. -/
def pySplit (s : List Char) : List (List Char) :=
  pySplitAux s []

/-- Python `x.strip().lower()`, the per-keyword normalisation applied in
`Job.__post_init__` (database.py line 25). -/
def normKeyword (s : List Char) : List Char :=
  pyLower (pyStrip s)

/-- Python's substring test `small in big` restricted to a membership scan:
`pyStartsWith pat l` is `True` when `pat` is an initial segment of `l`. -/
def pyStartsWith : List Char → List Char → Bool
  | [], _ => true
  | _ :: _, [] => false
  | a :: as, b :: bs => a = b && pyStartsWith as bs

/-- Python's `in` operator on strings: substring containment. -/
def pyIn (pat : List Char) : List Char → Bool
  | [] => pyStartsWith pat []
  | l@(_ :: bs) => pyStartsWith pat l || pyIn pat bs

/-! ## Data model: `Link` (scrape.py) and `Job` (database.py) -/

/-- `scrape.Link`: frozen dataclass with structural equality on both
fields (scrape.py lines 16–19). -/
structure Link where
  href : String
  text : String
  deriving DecidableEq, Repr

/-- `database.Job`: dataclass with fields user, url, freq, keywords;
`keywords` defaults to `None` (modelled as `Option`). -/
structure Job where
  user : Int
  url : String
  freq : Int
  keywords : Option (List (List Char))
  deriving DecidableEq, Repr

/-- `Job.__post_init__` (database.py lines 21–25): every constructed `Job`
has its keywords mapped through `x.strip().lower()`; `None` is left as is.
All `Job` construction sites in the program go through this. -/
def Job.make (user : Int) (url : String) (freq : Int)
    (keywords : Option (List (List Char))) : Job :=
  { user := user, url := url, freq := freq
    keywords := keywords.map (fun ks => ks.map normKeyword) }

/-- `Job.kw_string` (database.py lines 27–35): the keywords joined by a
single space, or `None` when the keyword list is `None` or empty (Python
truthiness of the list). -/
def Job.kw_string (j : Job) : Option (List Char) :=
  match j.keywords with
  | none => none
  | some [] => none
  | some (k :: ks) => some (pyJoin [' '] (k :: ks))

/-! ## Database state (database.py)

The sqlite tables `jobs` (primary key (user, url), nullable `keywords`
column) and `links` (primary key (url, href, body)) are modelled as row
lists; `INSERT OR REPLACE` removes any row with the same primary key and
appends the new row. -/

/-- One row of the `jobs` table: `keywords` is a nullable TEXT column. -/
structure JobRow where
  user : Int
  url : String
  freq : Int
  kw : Option (List Char)
  deriving DecidableEq, Repr

/-- The database state: the `jobs` and `links` tables. -/
structure DB where
  jobs : List JobRow
  links : List (String × Link)
  deriving DecidableEq, Repr

namespace Database

/-- `Database.add_job` (database.py lines 94–104): `INSERT OR REPLACE`
into `jobs` keyed by (user, url), storing `job.kw_string`. -/
def add_job (db : DB) (job : Job) : DB :=
  { db with jobs :=
      db.jobs.filter (fun r => ¬(r.user = job.user ∧ r.url = job.url))
        ++ [⟨job.user, job.url, job.freq, job.kw_string⟩] }

/-- Reading one `jobs` row back as a `Job` (database.py lines 112/114):
`Job(r[0], r[1], r[2], r[3].split())`. A NULL keywords column makes
`r[3].split()` raise `AttributeError` (`None` has no `split`). -/
def rowToJob (r : JobRow) : Except PyError Job :=
  match r.kw with
  | none => .error .attributeError
  | some s => .ok (Job.make r.user r.url r.freq (some (pySplit s)))

/-- `Database.get_jobs` (database.py lines 106–116): all rows, or the
rows of one user; each row is converted with `rowToJob` and the first
NULL keywords column aborts the whole call. -/
def get_jobs (db : DB) (user : Option Int) : Except PyError (List Job) :=
  let rows := match user with
    | none => db.jobs
    | some u => db.jobs.filter (fun r => r.user = u)
  rows.mapM rowToJob

/-- `Database.delete_job` (database.py lines 118–125): takes a single
`Job` argument and deletes the row with its (user, url) key. -/
def delete_job (db : DB) (job : Job) : DB :=
  { db with jobs :=
      db.jobs.filter (fun r => ¬(r.user = job.user ∧ r.url = job.url)) }

/-- The call `db.delete_job(user, url)` as written in bot.py lines 41 and
198: it passes two positional arguments to the one-parameter method
`Database.delete_job(self, job)`, so Python raises `TypeError` at the
call, before any SQL runs. -/
def delete_job_call2 (_db : DB) (_user : Int) (_url : String) :
    Except PyError DB :=
  .error .typeError

/-- `Database.add_link` (database.py lines 127–135): `INSERT OR REPLACE`
into `links` whose primary key is the whole row (url, href, body), so a
duplicate insert leaves the table unchanged as a set of rows. -/
def add_link (db : DB) (url : String) (l : Link) : DB :=
  if (url, l) ∈ db.links then db
  else { db with links := db.links ++ [(url, l)] }

/-- `Database.add_links` (database.py lines 137–148): `executemany` of
`add_link` over the list. -/
def add_links (db : DB) (url : String) (ls : List Link) : DB :=
  ls.foldl (fun d l => add_link d url l) db

/-- `Database.get_links` (database.py lines 150–160) with a url: the
links stored for that page. -/
def get_links (db : DB) (url : String) : List Link :=
  (db.links.filter (fun r => r.1 = url)).map (fun r => r.2)

/-- `Database.reset_links` (database.py lines 162–169): delete every
links row for the page. -/
def reset_links (db : DB) (url : String) : DB :=
  { db with links := db.links.filter (fun r => ¬(r.1 = url)) }

end Database

/-! ## Link extraction (scrape.py `LinkKeywordParser`) -/

/-- `LinkKeywordParser.__init__` (scrape.py lines 28–34): keeps the
keywords, mapped to lower case, distinguishing `None` from a (possibly
empty) list. -/
structure LinkKeywordParser where
  keywords : Option (List (List Char))
  deriving DecidableEq, Repr

/-- The constructor call `LinkKeywordParser(keywords)`. -/
def LinkKeywordParser.make (keywords : Option (List (List Char))) :
    LinkKeywordParser :=
  ⟨keywords.map (fun ks => ks.map pyLower)⟩

/-- `LinkKeywordParser._matches` (scrape.py lines 53–62): `True` when the
link's lower-cased text contains at least one keyword as a substring. -/
def LinkKeywordParser.matchesLink (p : LinkKeywordParser) (l : Link) : Bool :=
  match p.keywords with
  | none => false
  | some ks => ks.any (fun k => pyIn k (pyLower l.text.toList))

/-- `LinkKeywordParser.parse` (scrape.py lines 36–51), applied to the
page's anchor tags (already turned into `Link` values by BeautifulSoup,
which is external): drop links whose href is `#`; if `keywords is None`
return everything, otherwise keep the links `_matches` accepts. -/
def LinkKeywordParser.parse (p : LinkKeywordParser) (pageLinks : List Link) :
    List Link :=
  let links := pageLinks.filter (fun l => l.href ≠ "#")
  match p.keywords with
  | none => links
  | some _ => links.filter (fun l => p.matchesLink l)

/-! ## The per-tick body `do_job` (bot.py lines 13–52)

`make_job_callback` closes over the job's user, url and keywords and the
database file; the returned `do_job` downloads the page (external), parses
it, and runs the diff/notify/persist logic. The download and the HTML
soup are external, so the embedding takes the parsed link list as input;
`urllib.parse.urljoin` is external too and is passed as a function
parameter. The outcome of `context.bot.send_message` is the `Delivery`
parameter. -/

/-- The outcome of the Telegram send inside the tick: either every
message is delivered, or `telegram.error.Unauthorized` is raised (the
bot was blocked / removed from the chat). -/
inductive Delivery where
  | ok
  | unauthorized
  deriving DecidableEq, Repr

/-- `utils.to_abs_urls` (utils.py lines 52–58), with `urljoin` external. -/
def to_abs_urls (urljoin : String → String → String) (url : String)
    (links : List Link) : List Link :=
  links.map (fun l => ⟨urljoin url l.href, l.text⟩)

/-- The observable outcome of one execution of `do_job`: the database
afterwards, the set of links notification was attempted for, whether the
snapshot was rewritten (`reset_links` + `add_links` ran), and the
exception, if any, that propagated out of the tick. -/
structure TickResult where
  db : DB
  notified : Finset Link
  stored : Bool
  err : Option PyError
  deriving DecidableEq

/-- `do_job` (bot.py lines 18–52). `parsed` is the output of
`LinkKeywordParser(keywords).parse(...)` on the downloaded page. The body:
if the parsed list is truthy, make links absolute, diff against the stored
links (`set(links) - old_links`), and if the difference is non-empty try
to send it; on `Unauthorized` the handler's `db.delete_job(user, url)`
raises `TypeError` (two arguments to a one-parameter method), aborting the
tick; otherwise the snapshot for the url is reset and replaced by the
fetched links. -/
def do_job (urljoin : String → String → String) (user : Int) (url : String)
    (parsed : List Link) (delivery : Delivery) (db : DB) : TickResult :=
  if parsed = [] then
    -- `if links:` is false: log only, the database is never touched.
    ⟨db, ∅, false, none⟩
  else
    let links := to_abs_urls urljoin url parsed
    let old_links := (Database.get_links db url).toFinset
    let new_links := links.toFinset \ old_links
    if new_links = ∅ then
      -- `if new_links:` is false: nothing sent, nothing persisted.
      ⟨db, ∅, false, none⟩
    else
      match delivery with
      | .unauthorized =>
        -- except-handler: `db.delete_job(user, url)` raises TypeError
        -- before any deletion; the tick aborts, nothing is persisted.
        match Database.delete_job_call2 db user url with
        | .error e => ⟨db, new_links, false, some e⟩
        | .ok db' => ⟨db', new_links, false, none⟩
      | .ok =>
        let db := Database.reset_links db url
        let db := Database.add_links db url links
        ⟨db, new_links, true, none⟩

/-! ## Scheduler and Task Registry (bot.py `_schedule` / `_unschedule`)

`Bot._job_map` is a Python dict from (user, url) to the `telegram.ext.Job`
handle returned by `run_repeating`. A handle records the repetition
interval and the delay of the first run, which `_schedule` passes as
`run_repeating(callback, 60 * job.freq, 1)` (interval in seconds, first
run after 1 second). Cancelled handles are tracked so that cancellation
(`schedule_removal`) is observable. -/

/-- A scheduled `telegram.ext.Job` handle: an identity plus the repeat
interval and first-run delay (both in seconds) it was created with. -/
structure TaskHandle where
  hid : Nat
  interval : Int
  first : Int
  deriving DecidableEq, Repr

/-- The scheduler state: the `_job_map` dict, the handles on which
`schedule_removal` has been called, and a counter for fresh handles. -/
structure Registry where
  map : List ((Int × String) × TaskHandle)
  cancelled : List TaskHandle
  nextId : Nat
  deriving DecidableEq, Repr

/-- `Bot._unschedule` (bot.py lines 233–243): pop the key from
`_job_map`; when a handle was present, call `schedule_removal` on it. -/
def Registry.unschedule (reg : Registry) (user : Int) (url : String) :
    Registry :=
  match reg.map.find? (fun e => e.1 = (user, url)) with
  | none => reg
  | some e =>
    { reg with
      map := reg.map.filter (fun e' => ¬(e'.1 = (user, url)))
      cancelled := reg.cancelled ++ [e.2] }

/-- `Bot._schedule` (bot.py lines 218–231): first `_unschedule` the
(user, url) key, then register the handle returned by
`run_repeating(make_job_callback(job, db), 60 * job.freq, 1)`. -/
def Registry.schedule (reg : Registry) (job : Job) : Registry :=
  let reg := reg.unschedule job.user job.url
  { reg with
    map := reg.map ++ [((job.user, job.url), ⟨reg.nextId, 60 * job.freq, 1⟩)]
    nextId := reg.nextId + 1 }

/-! ## Bot command handlers (bot.py `_add_job`, `_remove_job`) -/

namespace Bot

/-- Result of the `/add` handler after url validation and integer parsing
succeeded (the earlier returns only send usage/error replies and touch no
state). -/
structure AddResult where
  db : DB
  reg : Registry
  job : Job
  deriving DecidableEq

/-- The default of the `minimum_interval` constructor parameter
(bot.py line 73): 15 minutes. -/
def defaultMinimumInterval : Int := 15

/-- `Bot._add_job` (bot.py lines 118–160), the state-changing slice after
the url was validated and `freq = int(args[1])` parsed: clamp `freq` up to
`self._minimum_interval` (constructor default 15, bot.py line 73), take
`args[2::]` as keywords (the empty list when absent — never `None`), build
the `Job` (running `__post_init__`), upsert it into the database, and
schedule it. -/
def add_job (minimumInterval : Int) (user : Int) (url : String)
    (freq : Int) (args2 : List (List Char)) (db : DB) (reg : Registry) :
    AddResult :=
  let freq := if freq < minimumInterval then minimumInterval else freq
  let job := Job.make user url freq (some args2)
  ⟨Database.add_job db job, reg.schedule job, job⟩

/-- How one `/remove` invocation ends: a "no job for url" reply, a
successful removal, or an uncaught exception (the handler catches only
`IndexError`). -/
inductive RemoveOutcome where
  | notFound
  | removed
  | raised (e : PyError)
  deriving DecidableEq, Repr

/-- Result of the `/remove` handler. -/
structure RemoveResult where
  db : DB
  reg : Registry
  outcome : RemoveOutcome
  deriving DecidableEq

/-- `Bot._remove_job` (bot.py lines 178–207): fetch the user's jobs (an
`AttributeError` from a NULL keywords column propagates), reply not-found
when the url is absent, otherwise call `db.delete_job(user, url)` — which
raises `TypeError` (two arguments to the one-parameter
`Database.delete_job`) — and only then `_unschedule`. -/
def remove_job (user : Int) (url : String) (db : DB) (reg : Registry) :
    RemoveResult :=
  match Database.get_jobs db (some user) with
  | .error e => ⟨db, reg, .raised e⟩
  | .ok jobs =>
    if (jobs.map (fun j => j.url)).contains url then
      match Database.delete_job_call2 db user url with
      | .error e => ⟨db, reg, .raised e⟩
      | .ok db' => ⟨db', reg.unschedule user url, .removed⟩
    else
      ⟨db, reg, .notFound⟩

end Bot

/-! ## Lemmas about the snapshot store -/

theorem mem_get_links {db : DB} {url : String} {l : Link} :
    l ∈ Database.get_links db url ↔ (url, l) ∈ db.links := by
  constructor
  · intro h
    simp only [Database.get_links, List.mem_map, List.mem_filter,
      decide_eq_true_eq] at h
    obtain ⟨r, ⟨hmem, hurl⟩, hsnd⟩ := h
    have hr : r = (url, l) := by
      cases r
      simp only [Prod.mk.injEq]
      exact ⟨hurl, hsnd⟩
    rwa [hr] at hmem
  · intro h
    simp only [Database.get_links, List.mem_map, List.mem_filter,
      decide_eq_true_eq]
    exact ⟨(url, l), ⟨h, rfl⟩, rfl⟩

theorem get_links_add_link (db : DB) (url : String) (l : Link) :
    (Database.get_links (Database.add_link db url l) url).toFinset
      = insert l (Database.get_links db url).toFinset := by
  unfold Database.add_link
  by_cases h : (url, l) ∈ db.links
  · rw [if_pos h]
    have hmem : l ∈ (Database.get_links db url).toFinset :=
      List.mem_toFinset.mpr (mem_get_links.mpr h)
    rw [Finset.insert_eq_self.mpr hmem]
  · rw [if_neg h]
    have hfil : Database.get_links { db with links := db.links ++ [(url, l)] } url
        = Database.get_links db url ++ [l] := by
      simp [Database.get_links, List.filter_append]
    rw [hfil, List.toFinset_append]
    simp [Finset.union_comm, Finset.insert_eq]

theorem get_links_add_links (db : DB) (url : String) (ls : List Link) :
    (Database.get_links (Database.add_links db url ls) url).toFinset
      = (Database.get_links db url).toFinset ∪ ls.toFinset := by
  induction ls generalizing db with
  | nil => simp [Database.add_links]
  | cons a as ih =>
    show (Database.get_links (Database.add_links (Database.add_link db url a) url as) url).toFinset = _
    rw [ih, get_links_add_link, List.toFinset_cons]
    ext x
    simp only [Finset.mem_union, Finset.mem_insert]
    tauto

theorem get_links_reset (db : DB) (url : String) :
    Database.get_links (Database.reset_links db url) url = [] := by
  simp only [Database.get_links, Database.reset_links, List.filter_filter]
  rw [List.map_eq_nil_iff, List.filter_eq_nil_iff]
  intro a _
  simp

/-! ## Characterizations of `do_job` -/

/-- A tick on an empty parse result does nothing. -/
theorem do_job_nil_eq (urljoin : String → String → String) (user : Int)
    (url : String) (delivery : Delivery) (db : DB) :
    do_job urljoin user url [] delivery db = ⟨db, ∅, false, none⟩ := rfl

/-- A tick on a non-empty parse result: diff, then either return, abort
with `TypeError` (unauthorized branch), or persist. -/
theorem do_job_ne_nil_eq (urljoin : String → String → String) (user : Int)
    (url : String) (parsed : List Link) (delivery : Delivery) (db : DB)
    (hp : parsed ≠ []) :
    do_job urljoin user url parsed delivery db
      = if (to_abs_urls urljoin url parsed).toFinset
            \ (Database.get_links db url).toFinset = ∅ then
          ⟨db, ∅, false, none⟩
        else
          match delivery with
          | .unauthorized =>
            ⟨db, (to_abs_urls urljoin url parsed).toFinset
                \ (Database.get_links db url).toFinset, false, some .typeError⟩
          | .ok =>
            ⟨Database.add_links (Database.reset_links db url) url
                (to_abs_urls urljoin url parsed),
             (to_abs_urls urljoin url parsed).toFinset
                \ (Database.get_links db url).toFinset, true, none⟩ := by
  unfold do_job
  rw [if_neg hp]
  cases delivery <;> rfl

/-! ## Claims about the per-tick body -/

/-- C1: letting `A` be the stored link set and `B` the fetched link set of
a tick with successful delivery, the tick raises nothing, attempts
notification for exactly `B \ A` (set difference under structural `Link`
equality), whenever it rewrites the snapshot the new snapshot equals `B`,
and when `A = B` nothing is notified. -/
theorem do_job_diff_correct (urljoin : String → String → String) (user : Int)
    (url : String) (parsed : List Link) (db : DB) :
    (do_job urljoin user url parsed .ok db).err = none
    ∧ (do_job urljoin user url parsed .ok db).notified
        = (to_abs_urls urljoin url parsed).toFinset
            \ (Database.get_links db url).toFinset
    ∧ ((do_job urljoin user url parsed .ok db).stored = true →
        (Database.get_links (do_job urljoin user url parsed .ok db).db url).toFinset
          = (to_abs_urls urljoin url parsed).toFinset)
    ∧ ((Database.get_links db url).toFinset
          = (to_abs_urls urljoin url parsed).toFinset →
        (do_job urljoin user url parsed .ok db).notified = ∅) := by
  by_cases hp : parsed = []
  · subst hp
    rw [do_job_nil_eq]
    refine ⟨rfl, ?_, by simp, fun _ => rfl⟩
    simp [to_abs_urls]
  · rw [do_job_ne_nil_eq urljoin user url parsed .ok db hp]
    by_cases hnew : (to_abs_urls urljoin url parsed).toFinset
        \ (Database.get_links db url).toFinset = ∅
    · rw [if_pos hnew]
      refine ⟨rfl, hnew.symm, by simp, fun _ => rfl⟩
    · rw [if_neg hnew]
      refine ⟨rfl, rfl, fun _ => ?_, fun hab => ?_⟩
      · show (Database.get_links
            (Database.add_links (Database.reset_links db url) url
              (to_abs_urls urljoin url parsed)) url).toFinset = _
        rw [get_links_add_links, get_links_reset]
        simp
      · exact absurd (by rw [hab, Finset.sdiff_self]) hnew

/-- Witness for C1: a tick that stores (empty previous snapshot, one
fetched link) and a tick with `A = B` that notifies nothing. -/
theorem do_job_diff_correct_witness :
    (Database.get_links
        (do_job (fun _ h => h) 1 "u" [⟨"x", "t"⟩] .ok ⟨[], []⟩).db "u").toFinset
      = (to_abs_urls (fun _ h => h) "u" [⟨"x", "t"⟩]).toFinset
    ∧ (do_job (fun _ h => h) 1 "u" [⟨"x", "t"⟩] .ok
        ⟨[], [("u", ⟨"x", "t"⟩)]⟩).notified = ∅ := by
  constructor
  · exact (do_job_diff_correct (fun _ h => h) 1 "u" [⟨"x", "t"⟩] ⟨[], []⟩).2.2.1
      (by decide)
  · exact (do_job_diff_correct (fun _ h => h) 1 "u" [⟨"x", "t"⟩]
      ⟨[], [("u", ⟨"x", "t"⟩)]⟩).2.2.2 (by decide)

/-- C5: a tick whose fetch-and-extract step yields no links notifies
nothing, raises nothing, and leaves the database (snapshot included)
completely unchanged. -/
theorem do_job_empty_fetch (urljoin : String → String → String) (user : Int)
    (url : String) (delivery : Delivery) (db : DB) :
    do_job urljoin user url [] delivery db = ⟨db, ∅, false, none⟩ := rfl

/-- C3 (counterexample): the stored snapshot for "u" is `{(x,t1),(y,t2)}`
and the tick fetches the non-empty, different set `{(x,t1)}`; the notify
delta is empty and the code persists nothing — the snapshot stays the old
two-element set instead of being replaced by the fetched set. -/
theorem do_job_stale_snapshot_counterexample :
    do_job (fun _ h => h) 1 "u" [⟨"x", "t1"⟩] .ok
        ⟨[], [("u", ⟨"x", "t1"⟩), ("u", ⟨"y", "t2"⟩)]⟩
      = ⟨⟨[], [("u", ⟨"x", "t1"⟩), ("u", ⟨"y", "t2"⟩)]⟩, ∅, false, none⟩
    ∧ (to_abs_urls (fun _ h => h) "u" [⟨"x", "t1"⟩] ≠ [])
    ∧ ((Database.get_links ⟨[], [("u", ⟨"x", "t1"⟩), ("u", ⟨"y", "t2"⟩)]⟩
          "u").toFinset
        ≠ (to_abs_urls (fun _ h => h) "u" [⟨"x", "t1"⟩]).toFinset) := by
  refine ⟨?_, ?_, ?_⟩ <;> decide

/-- C3 (amended): whenever the notify delta (fetched minus stored) is
empty — even if the fetched set is non-empty and differs from the stored
snapshot — the tick persists nothing and leaves the database unchanged. -/
theorem do_job_no_delta_no_write (urljoin : String → String → String)
    (user : Int) (url : String) (parsed : List Link) (delivery : Delivery)
    (db : DB)
    (h : (to_abs_urls urljoin url parsed).toFinset
        \ (Database.get_links db url).toFinset = ∅) :
    do_job urljoin user url parsed delivery db = ⟨db, ∅, false, none⟩ := by
  by_cases hp : parsed = []
  · subst hp
    exact do_job_nil_eq urljoin user url delivery db
  · rw [do_job_ne_nil_eq urljoin user url parsed delivery db hp, if_pos h]

/-- Witness for the amended C3: stored `{(x,t1),(y,t2)}`, fetched
`{(x,t1)}` — a non-empty fetched set that differs from the stored one. -/
theorem do_job_no_delta_no_write_witness :
    do_job (fun _ h => h) 1 "u" [⟨"x", "t1"⟩] .ok
        ⟨[], [("u", ⟨"x", "t1"⟩), ("u", ⟨"y", "t2"⟩)]⟩
      = ⟨⟨[], [("u", ⟨"x", "t1"⟩), ("u", ⟨"y", "t2"⟩)]⟩, ∅, false, none⟩ :=
  do_job_no_delta_no_write (fun _ h => h) 1 "u" [⟨"x", "t1"⟩] .ok
    ⟨[], [("u", ⟨"x", "t1"⟩), ("u", ⟨"y", "t2"⟩)]⟩ (by decide)

/-- C2 (code evaluated at the failing input): a tick with a non-empty
notify delta whose delivery raises `Unauthorized`. The handler's
`db.delete_job(user, url)` passes two arguments to the one-parameter
`Database.delete_job`, so the tick aborts with `TypeError`: the
subscription row survives in the jobs table, nothing is persisted, and —
since `do_job` has no access to `Bot._job_map` at all — the key is never
unscheduled and the recurring task keeps firing. -/
theorem do_job_unauthorized_behavior :
    do_job (fun _ h => h) 1 "https://a" [⟨"https://a/x", "Big Sale"⟩]
        .unauthorized ⟨[⟨1, "https://a", 15, some "sale".toList⟩], []⟩
      = ⟨⟨[⟨1, "https://a", 15, some "sale".toList⟩], []⟩,
         {⟨"https://a/x", "Big Sale"⟩}, false, some .typeError⟩ := by
  decide

/-! ## Lemmas about the Task Registry -/

/-- `_unschedule` leaves the handle counter alone. -/
theorem unschedule_nextId (reg : Registry) (user : Int) (url : String) :
    (reg.unschedule user url).nextId = reg.nextId := by
  unfold Registry.unschedule
  cases reg.map.find? (fun e => e.1 = (user, url)) <;> rfl

/-- After `_unschedule` of a key, no registry entry carries that key. -/
theorem countP_unschedule_self (reg : Registry) (user : Int) (url : String) :
    ((reg.unschedule user url).map.countP
      (fun e => e.1 = (user, url))) = 0 := by
  unfold Registry.unschedule
  cases hf : reg.map.find? (fun e => e.1 = (user, url)) with
  | none =>
    rw [List.countP_eq_zero]
    intro e he
    simpa using List.find?_eq_none.mp hf e he
  | some e =>
    rw [List.countP_eq_zero]
    intro e' he'
    simpa using (List.mem_filter.mp he').2

/-- The entry `_schedule` appends: the job's key with a fresh handle
carrying `run_repeating`'s arguments `interval = 60 * job.freq` seconds
and `first = 1` second. -/
theorem schedule_getLast_eq (reg : Registry) (job : Job) :
    (reg.schedule job).map.getLast?
      = some ((job.user, job.url), ⟨reg.nextId, 60 * job.freq, 1⟩) := by
  unfold Registry.schedule
  rw [List.getLast?_concat, unschedule_nextId]

/-- One `_schedule` call leaves exactly one registry entry for its key. -/
theorem countP_schedule (reg : Registry) (job : Job) :
    ((reg.schedule job).map.countP
      (fun e => e.1 = (job.user, job.url))) = 1 := by
  unfold Registry.schedule
  rw [List.countP_append, countP_unschedule_self]
  simp

/-! ## Claims about the scheduler -/

/-- C4: along any non-empty sequence of `_schedule` calls on the same key
(user, url) — starting from any registry — after every prefix of the
sequence the registry holds exactly one task handle for that key:
`_schedule` cancels and removes any existing handle for the key before
inserting the new one. -/
theorem schedule_sequence_unique_handle (reg : Registry) (k : Int × String)
    (jobs : List Job) (hkey : ∀ j ∈ jobs, (j.user, j.url) = k)
    (p q : List Job) (hsplit : jobs = p ++ q) (hp : p ≠ []) :
    ((p.foldl Registry.schedule reg).map.countP (fun e => e.1 = k)) = 1 := by
  obtain ⟨p', a, rfl⟩ := (List.eq_nil_or_concat p).resolve_left hp
  rw [List.concat_eq_append] at hsplit ⊢
  rw [List.foldl_append]
  have ha : (a.user, a.url) = k := by
    apply hkey
    rw [hsplit]
    simp
  rw [show List.foldl Registry.schedule (List.foldl Registry.schedule reg p') [a]
      = (List.foldl Registry.schedule reg p').schedule a from rfl]
  rw [← ha]
  exact countP_schedule _ _

/-- Witness for C4: two consecutive `/add`-style schedules of the key
(1, "u") starting from the empty registry leave exactly one handle, both
after the first call and after the second. -/
theorem schedule_sequence_unique_handle_witness :
    (([Job.make 1 "u" 15 none, Job.make 1 "u" 30 none].foldl
        Registry.schedule ⟨[], [], 0⟩).map.countP
      (fun e => e.1 = ((1 : Int), "u"))) = 1
    ∧ (([Job.make 1 "u" 15 none].foldl Registry.schedule ⟨[], [], 0⟩).map.countP
      (fun e => e.1 = ((1 : Int), "u"))) = 1 := by
  constructor
  · exact schedule_sequence_unique_handle ⟨[], [], 0⟩ (1, "u")
      [Job.make 1 "u" 15 none, Job.make 1 "u" 30 none] (by decide)
      [Job.make 1 "u" 15 none, Job.make 1 "u" 30 none] [] rfl (by decide)
  · exact schedule_sequence_unique_handle ⟨[], [], 0⟩ (1, "u")
      [Job.make 1 "u" 15 none, Job.make 1 "u" 30 none] (by decide)
      [Job.make 1 "u" 15 none] [Job.make 1 "u" 30 none] rfl (by decide)

/-- C7 (counterexample): scheduling a job with the minimum 15-minute
interval registers a handle whose first-run delay is 1 second, not the
full interval of 900 seconds — `run_repeating(cb, 60 * job.freq, 1)`
passes `first=1`, so the first tick is near-immediate. -/
theorem schedule_first_run_counterexample :
    (Registry.schedule ⟨[], [], 0⟩ (Job.make 1 "u" 15 none)).map
      = [((1, "u"), ⟨0, 900, 1⟩)]
    ∧ ((1 : Int) ≠ 900) := by
  decide

/-- C7 (amended): every `_schedule` call registers a handle whose repeat
interval is `60 * job.freq` seconds and whose first execution is deferred
by 1 second (a near-immediate first run on every (re)schedule). -/
theorem schedule_first_run_delay (reg : Registry) (job : Job) :
    (reg.schedule job).map.getLast?
      = some ((job.user, job.url), ⟨reg.nextId, 60 * job.freq, 1⟩) :=
  schedule_getLast_eq reg job

/-! ## Claims about the command layer -/

/-- C6 (code evaluated at the failing input): a subscription added with
zero keyword arguments gets `keywords = []` (bot.py line 144), and
`LinkKeywordParser([])` stores the empty tuple, which is not `None`; its
`_matches` loop then rejects every link, so extraction returns no links —
whereas the parser built with `None` (scrape.py's "no keywords" case,
matching its docstring) returns every link on the page. -/
theorem empty_keywords_match_nothing :
    (LinkKeywordParser.make
        (Bot.add_job 15 1 "https://a.com" 20 [] ⟨[], []⟩
          ⟨[], [], 0⟩).job.keywords).parse [⟨"/a", "hello"⟩] = []
    ∧ (LinkKeywordParser.make none).parse [⟨"/a", "hello"⟩]
        = [⟨"/a", "hello"⟩] := by
  decide

/-- C8 (code evaluated at the failing input): `/remove` of an existing
subscription (user 1, url "https://a", one scheduled handle). The
handler's `db.delete_job(user, url)` passes two arguments to the
one-parameter `Database.delete_job`, so it raises `TypeError` (uncaught:
only `IndexError` is handled): the job row survives, and `_unschedule` is
never reached so the handle stays registered. The not-found branch, in
contrast, behaves as the claim says: it replies and changes no state. -/
theorem remove_job_typeerror :
    Bot.remove_job 1 "https://a"
        ⟨[⟨1, "https://a", 15, some "sale".toList⟩], []⟩
        ⟨[((1, "https://a"), ⟨0, 900, 1⟩)], [], 1⟩
      = ⟨⟨[⟨1, "https://a", 15, some "sale".toList⟩], []⟩,
         ⟨[((1, "https://a"), ⟨0, 900, 1⟩)], [], 1⟩, .raised .typeError⟩
    ∧ Bot.remove_job 1 "https://other"
        ⟨[⟨1, "https://a", 15, some "sale".toList⟩], []⟩
        ⟨[((1, "https://a"), ⟨0, 900, 1⟩)], [], 1⟩
      = ⟨⟨[⟨1, "https://a", 15, some "sale".toList⟩], []⟩,
         ⟨[((1, "https://a"), ⟨0, 900, 1⟩)], [], 1⟩, .notFound⟩ := by
  decide

/-- C9: `/add` with a requested interval below the configured floor is
not rejected: the job is created with frequency `max floor freq` —
below-floor requests are clamped up to the floor, at-or-above-floor
requests keep their value — the job row is upserted into the database,
and the job is scheduled. The floor's constructor default is 15. -/
theorem add_job_clamps_interval (minimumInterval : Int) (user : Int)
    (url : String) (freq : Int) (args2 : List (List Char)) (db : DB)
    (reg : Registry) :
    (Bot.add_job minimumInterval user url freq args2 db reg).job
        = Job.make user url (max minimumInterval freq) (some args2)
    ∧ (freq < minimumInterval →
        (Bot.add_job minimumInterval user url freq args2 db reg).job.freq
          = minimumInterval)
    ∧ (minimumInterval ≤ freq →
        (Bot.add_job minimumInterval user url freq args2 db reg).job.freq
          = freq)
    ∧ (⟨user, url, max minimumInterval freq,
          (Job.make user url (max minimumInterval freq) (some args2)).kw_string⟩
        : JobRow) ∈ (Bot.add_job minimumInterval user url freq args2 db reg).db.jobs
    ∧ (Bot.add_job minimumInterval user url freq args2 db reg).reg.map.getLast?
        = some ((user, url), ⟨reg.nextId, 60 * max minimumInterval freq, 1⟩)
    ∧ Bot.defaultMinimumInterval = 15 := by
  have hclamp : (if freq < minimumInterval then minimumInterval else freq)
      = max minimumInterval freq := by
    by_cases h : freq < minimumInterval
    · rw [if_pos h, max_eq_left (le_of_lt h)]
    · rw [if_neg h, max_eq_right (le_of_not_lt h)]
  have hjob : (Bot.add_job minimumInterval user url freq args2 db reg).job
      = Job.make user url (max minimumInterval freq) (some args2) := by
    unfold Bot.add_job
    rw [hclamp]
  refine ⟨hjob, fun h => ?_, fun h => ?_, ?_, ?_, rfl⟩
  · rw [hjob]
    show max minimumInterval freq = minimumInterval
    exact max_eq_left (le_of_lt h)
  · rw [hjob]
    show max minimumInterval freq = freq
    exact max_eq_right h
  · show _ ∈ (Database.add_job db (Job.make user url
      (if freq < minimumInterval then minimumInterval else freq) (some args2))).jobs
    rw [hclamp]
    unfold Database.add_job
    simp [Job.make, Job.kw_string]
  · show (reg.schedule (Job.make user url
      (if freq < minimumInterval then minimumInterval else freq) (some args2))).map.getLast? = _
    rw [hclamp, schedule_getLast_eq]
    rfl

/-- Witness for C9: the floor 15 clamps a requested interval of 10 up to
15, and keeps a requested interval of 20. -/
theorem add_job_clamps_interval_witness :
    (Bot.add_job 15 1 "https://a" 10 [] ⟨[], []⟩ ⟨[], [], 0⟩).job.freq = 15
    ∧ (Bot.add_job 15 1 "https://a" 20 [] ⟨[], []⟩ ⟨[], [], 0⟩).job.freq = 20 := by
  constructor
  · exact (add_job_clamps_interval 15 1 "https://a" 10 [] ⟨[], []⟩
      ⟨[], [], 0⟩).2.1 (by decide)
  · exact (add_job_clamps_interval 15 1 "https://a" 20 [] ⟨[], []⟩
      ⟨[], [], 0⟩).2.2.1 (by decide)

/-! ## String lemmas for the keyword round-trip -/

theorem map_fixed_eq_self {α : Type} {f : α → α} :
    ∀ {l : List α}, (∀ x ∈ l, f x = x) → l.map f = l
  | [], _ => rfl
  | a :: as, h => by
    rw [List.map_cons, h a (by simp),
      map_fixed_eq_self (fun x hx => h x (by simp [hx]))]

theorem dropWhile_eq_self_of_none {p : Char → Bool} :
    ∀ {l : List Char}, (∀ c ∈ l, p c = false) → l.dropWhile p = l
  | [], _ => rfl
  | a :: as, h => by
    rw [List.dropWhile_cons, h a (by simp)]
    simp

/-- `strip` of a string with no whitespace characters is itself. -/
theorem pyStrip_eq_self {w : List Char}
    (h : ∀ c ∈ w, c.isWhitespace = false) : pyStrip w = w := by
  unfold pyStrip
  rw [dropWhile_eq_self_of_none h,
    dropWhile_eq_self_of_none (fun c hc => h c (List.mem_reverse.mp hc))]
  exact List.reverse_reverse w

/-- Every piece produced by `pySplitAux` is non-empty, whitespace-free,
and its characters come from the scanned string or the accumulator. -/
theorem pySplitAux_pieces (s : List Char) :
    ∀ (acc : List Char), (∀ c ∈ acc, c.isWhitespace = false) →
      ∀ w ∈ pySplitAux s acc,
        w ≠ [] ∧ ∀ c ∈ w, c.isWhitespace = false ∧ (c ∈ s ∨ c ∈ acc) := by
  induction s with
  | nil =>
    intro acc hacc w hw
    unfold pySplitAux at hw
    split at hw
    · simp at hw
    · next ha =>
      simp only [List.mem_singleton] at hw
      subst hw
      refine ⟨by simpa using ha, fun c hc => ?_⟩
      rw [List.mem_reverse] at hc
      exact ⟨hacc c hc, Or.inr hc⟩
  | cons c cs ih =>
    intro acc hacc w hw
    unfold pySplitAux at hw
    split at hw
    · split at hw
      · obtain ⟨hne, hmem⟩ := ih [] (by simp) w hw
        refine ⟨hne, fun c' hc' => ?_⟩
        obtain ⟨hws, hor⟩ := hmem c' hc'
        refine ⟨hws, ?_⟩
        rcases hor with h | h
        · exact Or.inl (List.mem_cons_of_mem c h)
        · simp at h
      · next ha =>
        rcases List.mem_cons.mp hw with rfl | hw'
        · refine ⟨by simpa using ha, fun c' hc' => ?_⟩
          rw [List.mem_reverse] at hc'
          exact ⟨hacc c' hc', Or.inr hc'⟩
        · obtain ⟨hne, hmem⟩ := ih [] (by simp) w hw'
          refine ⟨hne, fun c' hc' => ?_⟩
          obtain ⟨hws, hor⟩ := hmem c' hc'
          refine ⟨hws, ?_⟩
          rcases hor with h | h
          · exact Or.inl (List.mem_cons_of_mem c h)
          · simp at h
    · next hcw =>
      have hacc' : ∀ c' ∈ c :: acc, c'.isWhitespace = false := by
        intro c' hc'
        rcases List.mem_cons.mp hc' with rfl | h
        · simpa using hcw
        · exact hacc c' h
      obtain ⟨hne, hmem⟩ := ih (c :: acc) hacc' w hw
      refine ⟨hne, fun c' hc' => ?_⟩
      obtain ⟨hws, hor⟩ := hmem c' hc'
      refine ⟨hws, ?_⟩
      rcases hor with h | h
      · exact Or.inl (List.mem_cons_of_mem c h)
      · rcases List.mem_cons.mp h with heq | h2
        · rw [heq]
          exact Or.inl (List.mem_cons_self _ cs)
        · exact Or.inr h2

/-- A character of a joined string comes from one of the joined pieces or
from the separator. -/
theorem mem_pyJoin {sep : List Char} {c : Char} :
    ∀ {xs : List (List Char)}, c ∈ pyJoin sep xs →
      (∃ x ∈ xs, c ∈ x) ∨ c ∈ sep := by
  intro xs
  induction xs with
  | nil =>
    intro h
    simp [pyJoin] at h
  | cons x xs ih =>
    intro h
    cases xs with
    | nil => exact Or.inl ⟨x, by simp, h⟩
    | cons y ys =>
      rw [show pyJoin sep (x :: y :: ys)
          = x ++ sep ++ pyJoin sep (y :: ys) from rfl] at h
      rcases List.mem_append.mp h with h1 | h2
      · rcases List.mem_append.mp h1 with ha | hb
        · exact Or.inl ⟨x, by simp, ha⟩
        · exact Or.inr hb
      · rcases ih h2 with ⟨z, hz, hcz⟩ | hs
        · exact Or.inl ⟨z, List.mem_cons_of_mem x hz, hcz⟩
        · exact Or.inr hs

/-- The ASCII lowering is idempotent. -/
theorem pyCharLower_idem (c : Char) :
    pyCharLower (pyCharLower c) = pyCharLower c := by
  unfold pyCharLower
  by_cases h : 65 ≤ c.toNat ∧ c.toNat ≤ 90
  · rw [if_pos h]
    have hval : (c.toNat + 32).isValidChar := Or.inl (by omega)
    have htn : (Char.ofNat (c.toNat + 32)).toNat = c.toNat + 32 := by
      unfold Char.ofNat
      rw [dif_pos hval]
      rfl
    have hne : ¬(65 ≤ (Char.ofNat (c.toNat + 32)).toNat
        ∧ (Char.ofNat (c.toNat + 32)).toNat ≤ 90) := by
      rw [htn]
      omega
    rw [if_neg hne]
  · rw [if_neg h, if_neg h]

/-- A whitespace-free string of already-lowered characters is fixed by
the keyword normalisation `strip().lower()`. -/
theorem normKeyword_fixed_of_piece {w : List Char}
    (hws : ∀ c ∈ w, c.isWhitespace = false)
    (hlow : ∀ c ∈ w, pyCharLower c = c) : normKeyword w = w := by
  unfold normKeyword
  rw [pyStrip_eq_self hws]
  exact map_fixed_eq_self hlow

/-- Re-normalising the pieces of the split of a stored (normalised,
space-joined) keyword string changes nothing: the pieces are
whitespace-free and consist of already-lowered characters. -/
theorem pySplit_join_map_norm (ks : List (List Char)) :
    (pySplit (pyJoin [' '] (ks.map normKeyword))).map normKeyword
      = pySplit (pyJoin [' '] (ks.map normKeyword)) := by
  apply map_fixed_eq_self
  intro w hw
  unfold pySplit at hw
  obtain ⟨hne, hmem⟩ :=
    pySplitAux_pieces (pyJoin [' '] (ks.map normKeyword)) [] (by simp) w hw
  apply normKeyword_fixed_of_piece
  · exact fun c hc => (hmem c hc).1
  · intro c hc
    obtain ⟨hws, hor⟩ := hmem c hc
    rcases hor with hs | habs
    · rcases mem_pyJoin hs with ⟨x, hx, hcx⟩ | hsep
      · obtain ⟨k, hk, rfl⟩ := List.mem_map.mp hx
        rw [show normKeyword k = (pyStrip k).map pyCharLower from rfl] at hcx
        obtain ⟨c', hc', rfl⟩ := List.mem_map.mp hcx
        exact pyCharLower_idem c'
      · simp only [List.mem_singleton] at hsep
        subst hsep
        exact absurd hws (by decide)
    · simp at habs

/-! ## Claim about the job round-trip through the database -/

/-- C10: storing a job with a non-empty keywords list and reading it back
round-trips: `get_jobs` returns a job with the same user, url and freq
whose keywords are exactly the stored space-joined keyword string split
on whitespace (so one keyword containing a space comes back as several);
a job whose keywords are `None` or the empty list is stored with a NULL
keywords column, and a subsequent `get_jobs` raises `AttributeError`
(`None.split()`) instead of returning the job. -/
theorem add_get_jobs_roundtrip (user : Int) (url : String) (freq : Int)
    (kws : Option (List (List Char))) :
    (∀ k kt, kws = some (k :: kt) →
        Database.get_jobs
            (Database.add_job ⟨[], []⟩ (Job.make user url freq kws)) none
          = .ok [⟨user, url, freq,
              some (pySplit (pyJoin [' '] ((k :: kt).map normKeyword)))⟩])
    ∧ ((kws = none ∨ kws = some []) →
        (Database.add_job ⟨[], []⟩ (Job.make user url freq kws)).jobs
            = [⟨user, url, freq, none⟩]
        ∧ Database.get_jobs
            (Database.add_job ⟨[], []⟩ (Job.make user url freq kws)) none
          = .error .attributeError) := by
  constructor
  · rintro k kt rfl
    show Except.ok [Job.make user url freq
        (some (pySplit (pyJoin [' '] ((k :: kt).map normKeyword))))] = _
    unfold Job.make
    rw [Option.map_some', pySplit_join_map_norm (k :: kt)]
  · rintro (rfl | rfl) <;> exact ⟨rfl, rfl⟩

/-- Witness for C10: the single keyword "a b" (with a space) is stored as
the string "a b" and comes back as the two keywords "a" and "b"; the
empty keyword list is stored as NULL and makes `get_jobs` raise. -/
theorem add_get_jobs_roundtrip_witness :
    Database.get_jobs (Database.add_job ⟨[], []⟩
        (Job.make 7 "https://a" 30 (some [['a', ' ', 'b']]))) none
      = .ok [⟨7, "https://a", 30, some [['a'], ['b']]⟩]
    ∧ Database.get_jobs (Database.add_job ⟨[], []⟩
        (Job.make 7 "https://a" 30 (some []))) none
      = .error .attributeError := by
  constructor
  · have h := (add_get_jobs_roundtrip 7 "https://a" 30
      (some [['a', ' ', 'b']])).1 ['a', ' ', 'b'] [] rfl
    exact h.trans rfl
  · exact ((add_get_jobs_roundtrip 7 "https://a" 30 (some [])).2
      (Or.inr rfl)).2

end KwScrapeBot
